import Mathlib

/-!
Verification development for the recipe-parser repository.

The development shallowly embeds `src/recipe_parser.py` into Lean:

* The external markup-parsing capability (BeautifulSoup) is modelled as a
  first-child/next-sibling forest of element nodes (`HForest`), with `find`
  and `find_all` as preorder traversals, exactly the query surface the
  source uses.
* The external `json` standard-library decoder is modelled by an executable
  recursive-descent decoder over an inductive JSON value type (`JVal`),
  restricted to the ASCII subset exercised here; decode failures are the
  `jsonDecodeError` class, and decoding an absent string is a `typeError`,
  matching CPython semantics for `json.loads(None)`.
* Python runtime failures that the source can raise are reified in the
  `PyErr` type, and every fallible operation returns `Except PyErr`.
* Python `str.strip` is modelled by `pstrip`, `str.lower` by `lcStr`, and
  case-insensitive class-pattern searching by `seqSearch`/`lcontains`.

The ingredient decomposer and the serving-line validity filter described by
the specification live in a second parser file of the repository that is
not present under `src/`; those two definitions are modelled from the
specification text and are marked as such in their doc comments.
-/

namespace RecipeParser

/-- Characters stripped by Python `str.strip()` (ASCII whitespace set). -/
def isPySpace (c : Char) : Bool :=
  c == ' ' || c == '\t' || c == '\n' || c == '\r' || c == Char.ofNat 11 || c == Char.ofNat 12

/-- ASCII lowercase of one character, modelling `str.lower` / `re.I` on the
ASCII subset used by the source's patterns. -/
def lcChar (c : Char) : Char :=
  if 65 ≤ c.toNat && c.toNat ≤ 90 then Char.ofNat (c.toNat + 32) else c

/-- ASCII lowercase of a character list. -/
def lcList (l : List Char) : List Char := l.map lcChar

/-- Strip leading Python whitespace from a character list. -/
def lstripL (l : List Char) : List Char := l.dropWhile isPySpace

/-- Strip trailing Python whitespace from a character list. -/
def rstripL (l : List Char) : List Char := (l.reverse.dropWhile isPySpace).reverse

/-- Model of Python `str.strip()` on character lists. -/
def pstripL (l : List Char) : List Char := rstripL (lstripL l)

/-- Model of Python `str.strip()`. -/
def pstrip (s : String) : String := String.mk (pstripL s.toList)

/-- Does the first list occur as a leading segment of the second? -/
def lstarts : List Char → List Char → Bool
  | [], _ => true
  | _ :: _, [] => false
  | a :: as, b :: bs => a == b && lstarts as bs

/-- Does `needle` occur as a contiguous segment of `hay`?  This models a
`re` search for a pattern with no metacharacters. -/
def lcontains (needle : List Char) : List Char → Bool
  | [] => lstarts needle []
  | c :: cs => lstarts needle (c :: cs) || lcontains needle cs

/-- Does `hay` contain an occurrence of `a` followed (at or after its end)
by an occurrence of `b`?  This models a `re` search for `a.*b`: the search
succeeds at the leftmost occurrence of `a` exactly when `b` occurs in the
remaining suffix, and later start positions only see shorter suffixes. -/
def seqSearch (a b : List Char) : List Char → Bool
  | [] => lstarts a [] && lcontains b []
  | c :: cs =>
    if lstarts a (c :: cs) then lcontains b ((c :: cs).drop a.length)
    else seqSearch a b cs

/-- Decoded JSON values, the result type of the modelled `json.loads`.
Numeric literals are kept as their lexemes; the source never computes with
them, it only hits type errors on them. -/
inductive JVal where
  | jnull : JVal
  | jbool : Bool → JVal
  | jnum : String → JVal
  | jstr : String → JVal
  | jarr : List JVal → JVal
  | jobj : List (String × JVal) → JVal

/-- Python exception classes that `src/recipe_parser.py` can raise while
parsing (the fetch layer is modelled separately). -/
inductive PyErr where
  | typeError : PyErr
  | keyError : PyErr
  | attributeError : PyErr
  | indexError : PyErr
  | jsonDecodeError : PyErr
deriving DecidableEq

def quoteChar : Char := Char.ofNat 34

def backslashChar : Char := Char.ofNat 92

def lbraceChar : Char := Char.ofNat 123

def rbraceChar : Char := Char.ofNat 125

/-- JSON insignificant whitespace. -/
def skipWs (l : List Char) : List Char :=
  l.dropWhile (fun c => c == ' ' || c == '\t' || c == '\n' || c == '\r')

/-- Map one JSON string escape character to the character it denotes. -/
def escMap (c : Char) : Option Char :=
  if c == quoteChar then some quoteChar
  else if c == backslashChar then some backslashChar
  else if c == '/' then some '/'
  else if c == 'n' then some '\n'
  else if c == 't' then some '\t'
  else if c == 'r' then some '\r'
  else none

/-- Parse the body of a JSON string literal after its opening quote. -/
def parseJStr : List Char → Option (String × List Char)
  | [] => none
  | c :: rest =>
    if c == quoteChar then some ("", rest)
    else if c == backslashChar then
      match rest with
      | [] => none
      | e :: rest2 =>
        match escMap e, parseJStr rest2 with
        | some ec, some (s, r) => some (ec.toString ++ s, r)
        | _, _ => none
    else
      match parseJStr rest with
      | some (s, r) => some (c.toString ++ s, r)
      | none => none

/-- Insert a key into a decoded object, replacing in place on duplicates,
matching CPython dict insertion semantics used by `json.loads`. -/
def objInsert (fs : List (String × JVal)) (k : String) (v : JVal) : List (String × JVal) :=
  match fs with
  | [] => [(k, v)]
  | (k0, v0) :: rest => if k0 == k then (k0, v) :: rest else (k0, v0) :: objInsert rest k v

/-- First-match association lookup on a decoded (deduplicated) object. -/
def dictFind (fs : List (String × JVal)) (k : String) : Option JVal :=
  match fs with
  | [] => none
  | (k0, v) :: rest => if k0 == k then some v else dictFind rest k

def numChar (c : Char) : Bool :=
  c.isDigit || c == '-' || c == '+' || c == '.' || c == 'e' || c == 'E'

/-- Parse one JSON value after the given remaining elements of a composite,
shared between arrays and objects; `pv` parses one value at the current
nesting level.  Fuel bounds the number of elements. -/
def parseElemsWith (pv : List Char → Option (JVal × List Char)) :
    Nat → List Char → Option (List JVal × List Char)
  | 0, _ => none
  | Nat.succ f, cs =>
    match pv cs with
    | none => none
    | some (v, r) =>
      match skipWs r with
      | c :: r2 =>
        if c == ',' then
          match parseElemsWith pv f r2 with
          | some (vs, r3) => some (v :: vs, r3)
          | none => none
        else if c == ']' then some ([v], r2)
        else none
      | [] => none

/-- Parse the members of a JSON object after its opening brace, given a
value parser for the current nesting level. -/
def parseMembersWith (pv : List Char → Option (JVal × List Char)) :
    Nat → List Char → Option (List (String × JVal) × List Char)
  | 0, _ => none
  | Nat.succ f, cs =>
    match skipWs cs with
    | c :: r0 =>
      if c == quoteChar then
        match parseJStr r0 with
        | none => none
        | some (k, r1) =>
          match skipWs r1 with
          | c2 :: r2 =>
            if c2 == ':' then
              match pv r2 with
              | none => none
              | some (v, r3) =>
                match skipWs r3 with
                | c3 :: r4 =>
                  if c3 == ',' then
                    match parseMembersWith pv f r4 with
                    | some (fs, r5) => some ((k, v) :: fs, r5)
                    | none => none
                  else if c3 == rbraceChar then some ([(k, v)], r4)
                  else none
                | [] => none
            else none
          | [] => none
      else none
    | [] => none

/-- Deduplicate the raw member list front to back, last value winning, as
CPython builds the dict. -/
def dedupMembers (fs : List (String × JVal)) : List (String × JVal) :=
  fs.foldl (fun acc kv => objInsert acc kv.1 kv.2) []

/-- Recursive-descent parser for the modelled `json.loads`; fuel bounds the
nesting depth. -/
def parseVal : Nat → List Char → Option (JVal × List Char)
  | 0, _ => none
  | Nat.succ f, cs0 =>
    match skipWs cs0 with
    | [] => none
    | c :: rest =>
      if c == 'n' then
        if lstarts ['u', 'l', 'l'] rest then some (JVal.jnull, rest.drop 3) else none
      else if c == 't' then
        if lstarts ['r', 'u', 'e'] rest then some (JVal.jbool true, rest.drop 3) else none
      else if c == 'f' then
        if lstarts ['a', 'l', 's', 'e'] rest then some (JVal.jbool false, rest.drop 4) else none
      else if c == quoteChar then
        match parseJStr rest with
        | some (s, r) => some (JVal.jstr s, r)
        | none => none
      else if c.isDigit || c == '-' then
        some (JVal.jnum (String.mk (c :: rest.takeWhile numChar)), rest.dropWhile numChar)
      else if c == '[' then
        match skipWs rest with
        | c2 :: r2 =>
          if c2 == ']' then some (JVal.jarr [], r2)
          else
            match parseElemsWith (parseVal f) f (skipWs rest) with
            | some (vs, r3) => some (JVal.jarr vs, r3)
            | none => none
        | [] => none
      else if c == lbraceChar then
        match skipWs rest with
        | c2 :: r2 =>
          if c2 == rbraceChar then some (JVal.jobj [], r2)
          else
            match parseMembersWith (parseVal f) f (skipWs rest) with
            | some (fs, r3) => some (JVal.jobj (dedupMembers fs), r3)
            | none => none
        | [] => none
      else none

/-- Model of `json.loads` applied to a BeautifulSoup `.string`, which is
`None` when the script tag has no single text child; CPython then raises a
`TypeError`, while malformed text raises `json.JSONDecodeError`. -/
def json_loads : Option String → Except PyErr JVal
  | none => Except.error PyErr.typeError
  | some s =>
    match parseVal (s.length + 1) s.toList with
    | some (v, r) => if skipWs r == [] then Except.ok v else Except.error PyErr.jsonDecodeError
    | none => Except.error PyErr.jsonDecodeError

/-- View of one element node as BeautifulSoup exposes it to the source:
tag name, the class attribute (absent when the element has none), other
attributes, `.string` (the single text child, absent otherwise), and
`.text` (the concatenated descendant text). -/
structure NodeView where
  tag : String
  cls : Option String
  attrs : List (String × String)
  strChild : Option String
  text : String
deriving DecidableEq

/-- Element forest in first-child/next-sibling form, modelling the parsed
markup tree the Markup Tree Adapter produces. -/
inductive HForest where
  | nil : HForest
  | node : String → Option String → List (String × String) → Option String → String →
      HForest → HForest → HForest

/-- Association lookup on attributes. -/
def attrFind (attrs : List (String × String)) (k : String) : Option String :=
  match attrs with
  | [] => none
  | (k0, v) :: rest => if k0 == k then some v else attrFind rest k

/-- All matching nodes in document (preorder) order, each with its child
forest; models BeautifulSoup `find_all` over descendants. -/
def findAllF (p : NodeView → Bool) : HForest → List (NodeView × HForest)
  | HForest.nil => []
  | HForest.node t c a s x ch nx =>
    (if p ⟨t, c, a, s, x⟩ then [(⟨t, c, a, s, x⟩, ch)] else [])
      ++ findAllF p ch ++ findAllF p nx

/-- First matching node in document order; models BeautifulSoup `find`. -/
def findDoc (p : NodeView → Bool) (f : HForest) : Option (NodeView × HForest) :=
  (findAllF p f).head?

/-- Class-attribute test: the node has a class and the (lowercased) class
string satisfies the pattern, modelling `class_=re.compile(..., re.I)`. -/
def clsMatches (pat : List Char → Bool) (n : NodeView) : Bool :=
  match n.cls with
  | some c => pat (lcList c.toList)
  | none => false

/-- The `recipe.*title|title.*recipe` class pattern of the name heuristic. -/
def titleRecipePat (l : List Char) : Bool :=
  seqSearch "recipe".toList "title".toList l || seqSearch "title".toList "recipe".toList l

/-- The `recipe.*description|description` class pattern. -/
def descPat (l : List Char) : Bool :=
  seqSearch "recipe".toList "description".toList l || lcontains "description".toList l

/-- The `ingredient` class pattern. -/
def ingredientPat (l : List Char) : Bool := lcontains "ingredient".toList l

/-- The `instruction|direction|method` class pattern. -/
def instructionPat (l : List Char) : Bool :=
  lcontains "instruction".toList l || lcontains "direction".toList l
    || lcontains "method".toList l

def isH1 (n : NodeView) : Bool := n.tag == "h1"

def isTitleTag (n : NodeView) : Bool := n.tag == "title"

def isMetaDesc (n : NodeView) : Bool :=
  n.tag == "meta" && attrFind n.attrs "name" == some "description"

def isIngSection (n : NodeView) : Bool :=
  (n.tag == "ul" || n.tag == "div") && clsMatches ingredientPat n

def isInstrSection (n : NodeView) : Bool :=
  (n.tag == "ol" || n.tag == "div") && clsMatches instructionPat n

def isLiP (n : NodeView) : Bool := n.tag == "li" || n.tag == "p"

def isLdJsonScript (n : NodeView) : Bool :=
  n.tag == "script" && attrFind n.attrs "type" == some "application/ld+json"

/-- The parsed-recipe record of `src/recipe_parser.py` (`Recipe` dataclass);
the source always populates `description` with a string. -/
structure Recipe where
  name : String
  description : String
  ingredients : List String
  instructions : List String
  url : String
deriving DecidableEq

/-- The name-resolution loop of `_parse_html_recipe`: first present
candidate with non-empty stripped text wins, else the empty string. -/
def pickText : List (Option (NodeView × HForest)) → String
  | [] => ""
  | none :: rest => pickText rest
  | some (n, _) :: rest => if pstrip n.text == "" then pickText rest else pstrip n.text

/-- The description-resolution loop of `_parse_html_recipe`: for a present
candidate, `candidate.get('content', candidate.text)` stripped; first
non-empty such text wins. -/
def pickDesc : List (Option (NodeView × HForest)) → String
  | [] => ""
  | none :: rest => pickDesc rest
  | some (n, _) :: rest =>
    let t := pstrip ((attrFind n.attrs "content").getD n.text)
    if t == "" then pickDesc rest else t

/-- The `[item.text.strip() for item in ... if item.text.strip()]`
comprehension of the heuristic extractor. -/
def stripTexts (items : List (NodeView × HForest)) : List String :=
  (items.map (fun it => pstrip it.1.text)).filter (fun s => !(s == ""))

/-- Embedding of `RecipeParser._parse_html_recipe`. -/
def parse_html_recipe (soup : HForest) (url : String) : Recipe :=
  ⟨pickText [findDoc isH1 soup, findDoc isTitleTag soup,
      findDoc (clsMatches titleRecipePat) soup],
   pickDesc [findDoc (clsMatches descPat) soup, findDoc isMetaDesc soup],
   match findDoc isIngSection soup with
   | some (_, ch) => stripTexts (findAllF isLiP ch)
   | none => [],
   match findDoc isInstrSection soup with
   | some (_, ch) => stripTexts (findAllF isLiP ch)
   | none => [],
   url⟩

/-- Python `data.get(k, default)`: attribute error when the receiver is not
a mapping (no `.get`), else the value or the default. -/
def jGetD (v : JVal) (k : String) (d : JVal) : Except PyErr JVal :=
  match v with
  | JVal.jobj fs => Except.ok ((dictFind fs k).getD d)
  | _ => Except.error PyErr.attributeError

/-- Python `x.strip()`: attribute error unless `x` is a string. -/
def jStripE (v : JVal) : Except PyErr String :=
  match v with
  | JVal.jstr s => Except.ok (pstrip s)
  | _ => Except.error PyErr.attributeError

/-- Python iteration over a decoded value: lists yield elements, mappings
yield their keys, strings yield their characters, everything else raises a
`TypeError`. -/
def pyIter (v : JVal) : Except PyErr (List JVal) :=
  match v with
  | JVal.jarr xs => Except.ok xs
  | JVal.jobj fs => Except.ok (fs.map (fun kv => JVal.jstr kv.1))
  | JVal.jstr s => Except.ok (s.toList.map (fun c => JVal.jstr c.toString))
  | _ => Except.error PyErr.typeError

/-- The `if isinstance(x, str): x = [x]` promotion. -/
def promoteStr (v : JVal) : JVal :=
  match v with
  | JVal.jstr s => JVal.jarr [JVal.jstr s]
  | v => v

/-- The per-element normalization of `recipeInstructions`:
`i.get('text', i) if isinstance(i, dict) else i`. -/
def instrMap (i : JVal) : JVal :=
  match i with
  | JVal.jobj fs => (dictFind fs "text").getD (JVal.jobj fs)
  | v => v

/-- The `recipeInstructions` normalization: a string is promoted to a
one-element list; a list is mapped through `instrMap`; anything else is
left unchanged (and will be iterated as-is afterwards). -/
def normInstr (v : JVal) : JVal :=
  match v with
  | JVal.jstr s => JVal.jarr [JVal.jstr s]
  | JVal.jarr xs => JVal.jarr (xs.map instrMap)
  | v => v

/-- The `[i.strip() for i in xs if i.strip()]` comprehension over decoded
values: every element must support `.strip()`, and empty results are
dropped. -/
def stripFilter : List JVal → Except PyErr (List String)
  | [] => Except.ok []
  | v :: vs =>
    match jStripE v with
    | Except.error e => Except.error e
    | Except.ok s =>
      match stripFilter vs with
      | Except.error e => Except.error e
      | Except.ok rest => Except.ok (if s == "" then rest else s :: rest)

/-- `data.get(k, '').strip()` for the `name` and `description` fields. -/
def schemaStrField (data : JVal) (k : String) : Except PyErr String :=
  match jGetD data k (JVal.jstr "") with
  | Except.error e => Except.error e
  | Except.ok v => jStripE v

/-- The ingredient block of `_parse_schema_recipe`. -/
def schemaIngredients (data : JVal) : Except PyErr (List String) :=
  match jGetD data "recipeIngredient" (JVal.jarr []) with
  | Except.error e => Except.error e
  | Except.ok v =>
    match pyIter (promoteStr v) with
    | Except.error e => Except.error e
    | Except.ok vals => stripFilter vals

/-- The instruction block of `_parse_schema_recipe`. -/
def schemaInstructions (data : JVal) : Except PyErr (List String) :=
  match jGetD data "recipeInstructions" (JVal.jarr []) with
  | Except.error e => Except.error e
  | Except.ok v =>
    match pyIter (normInstr v) with
    | Except.error e => Except.error e
    | Except.ok vals => stripFilter vals

/-- Embedding of `RecipeParser._parse_schema_recipe`. -/
def parse_schema_recipe (data : JVal) (url : String) : Except PyErr Recipe :=
  match schemaStrField data "name" with
  | Except.error e => Except.error e
  | Except.ok name =>
    match schemaStrField data "description" with
    | Except.error e => Except.error e
    | Except.ok description =>
      match schemaIngredients data with
      | Except.error e => Except.error e
      | Except.ok ingredients =>
        match schemaInstructions data with
        | Except.error e => Except.error e
        | Except.ok instructions =>
          Except.ok ⟨name, description, ingredients, instructions, url⟩

/-- `data = data[0]` when the decoded value is a list: empty lists raise
an `IndexError`. -/
def jFirst (v : JVal) : Except PyErr JVal :=
  match v with
  | JVal.jarr [] => Except.error PyErr.indexError
  | JVal.jarr (x :: _) => Except.ok x
  | v => Except.ok v

/-- Python `'@type' in data`: key test on mappings, substring test on
strings, element-equality test on lists, `TypeError` otherwise. -/
def atTypeMem (v : JVal) : Except PyErr Bool :=
  match v with
  | JVal.jobj fs => Except.ok (dictFind fs "@type").isSome
  | JVal.jstr s => Except.ok (lcontains "@type".toList s.toList)
  | JVal.jarr xs =>
    Except.ok (xs.any (fun x => match x with | JVal.jstr s => s == "@type" | _ => false))
  | _ => Except.error PyErr.typeError

/-- Python `data['@type']`: mapping lookup (`KeyError` when absent),
`TypeError` for string or list receivers indexed by a string. -/
def atTypeGet (v : JVal) : Except PyErr JVal :=
  match v with
  | JVal.jobj fs =>
    match dictFind fs "@type" with
    | some t => Except.ok t
    | none => Except.error PyErr.keyError
  | _ => Except.error PyErr.typeError

/-- Python `data['@type'] in ['Recipe', 'recipe']`. -/
def isRecipeType (v : JVal) : Bool :=
  match v with
  | JVal.jstr s => s == "Recipe" || s == "recipe"
  | _ => false

/-- The type-discriminator check of `parse_recipe` applied to the (first
element of the) decoded value, delegating to the structured extractor on a
Recipe type; `Except.ok none` means the check fell through without
returning. -/
def probeType (d : JVal) (url : String) : Except PyErr (Option Recipe) :=
  match atTypeMem d with
  | Except.error e => Except.error e
  | Except.ok mem =>
    if mem then
      match atTypeGet d with
      | Except.error e => Except.error e
      | Except.ok t =>
        if isRecipeType t then
          match parse_schema_recipe d url with
          | Except.error e => Except.error e
          | Except.ok r => Except.ok (some r)
        else Except.ok none
    else Except.ok none

/-- The body of the `try` block of `parse_recipe`: decode the script text,
take the first element of an array, then check the type discriminator. -/
def tryStructured (sc : NodeView) (url : String) : Except PyErr (Option Recipe) :=
  match json_loads sc.strChild with
  | Except.error e => Except.error e
  | Except.ok v0 =>
    match jFirst v0 with
    | Except.error e => Except.error e
    | Except.ok d => probeType d url

/-- Embedding of `RecipeParser.parse_recipe` after a successful fetch: the
first `application/ld+json` script is probed inside a
`try/except (json.JSONDecodeError, KeyError)` whose handler falls through
to the heuristic extractor; any other exception propagates. -/
def parse_recipe (soup : HForest) (url : String) : Except PyErr Recipe :=
  match findDoc isLdJsonScript soup with
  | some (sc, _) =>
    match tryStructured sc url with
    | Except.ok (some r) => Except.ok r
    | Except.ok none => Except.ok (parse_html_recipe soup url)
    | Except.error e =>
      if e == PyErr.jsonDecodeError || e == PyErr.keyError then
        Except.ok (parse_html_recipe soup url)
      else Except.error e
  | none => Except.ok (parse_html_recipe soup url)

/-- Failures visible to the caller of `parse_recipe`: the wrapped fetch
failure, or a propagated Python exception from parsing. -/
inductive TopErr where
  | fetchError : String → TopErr
  | pyError : PyErr → TopErr
deriving DecidableEq

/-- Embedding of the full call: the fetch collaborator either yields the
parsed markup tree or an underlying failure message, which `fetch_page`
wraps into the call-fatal fetch failure. -/
def parse_recipe_url (fetched : Except String HForest) (url : String) : Except TopErr Recipe :=
  match fetched with
  | Except.error m => Except.error (TopErr.fetchError ("Failed to fetch recipe page: " ++ m))
  | Except.ok soup =>
    match parse_recipe soup url with
    | Except.ok r => Except.ok r
    | Except.error e => Except.error (TopErr.pyError e)

/-- Modelled from the spec: the `Ingredient` record of the repository's
second parser file, which is not present under `src/`; quantity and unit
are absent rather than empty. -/
structure Ingredient where
  quantity : Option String
  unit : Option String
  name : String
deriving DecidableEq

/-- Characters admitted in the quantity capture group: digits, `/`, `.`,
`,` and whitespace. -/
def qtyChar (c : Char) : Bool :=
  c.isDigit || c == '/' || c == '.' || c == ',' || isPySpace c

/-- ASCII alphabetic characters, the unit capture group's alphabet. -/
def alphaChar (c : Char) : Bool :=
  (97 ≤ c.toNat && c.toNat ≤ 122) || (65 ≤ c.toNat && c.toNat ≤ 90)

/-- Greedy-with-backtracking unit capture: with the quantity fixed as `q`,
try unit lengths from the fuel (the maximal alphabetic run) down to zero,
requiring one whitespace separator right after the unit. -/
def tryUnit (q rest : List Char) : Nat → Option (List Char × List Char × List Char)
  | 0 =>
    match rest with
    | c :: tail => if isPySpace c then some (q, [], tail) else none
    | [] => none
  | Nat.succ n =>
    match rest.drop (Nat.succ n) with
    | c :: tail =>
      if isPySpace c then some (q, rest.take (Nat.succ n), tail) else tryUnit q rest n
    | [] => tryUnit q rest n

/-- Greedy-with-backtracking quantity capture: try quantity lengths from
the fuel (the maximal quantity-character run) down to zero, and for each,
all unit lengths. -/
def tryQuantity (cs : List Char) : Nat → Option (List Char × List Char × List Char)
  | 0 => tryUnit [] cs ((cs.takeWhile alphaChar).length)
  | Nat.succ n =>
    match tryUnit (cs.take (Nat.succ n)) (cs.drop (Nat.succ n))
        (((cs.drop (Nat.succ n)).takeWhile alphaChar).length) with
    | some r => some r
    | none => tryQuantity cs n

/-- Modelled from the spec: the Ingredient Decomposer of the repository's
second parser file, which is not present under `src/`.  It matches the raw
line against leading quantity characters, then alphabetic unit characters,
then one mandatory whitespace separator, then the name remainder
(left-to-right, greedy, with backtracking); each captured group is
trimmed, empty quantity or unit become absent, and a failed match falls
back to the whole raw string as the name. -/
def decompose (raw : String) : Ingredient :=
  let cs := raw.toList
  match tryQuantity cs ((cs.takeWhile qtyChar).length) with
  | some (q, u, n) =>
    let qs := pstripL q
    let us := pstripL u
    ⟨if qs.isEmpty then none else some (String.mk qs),
     if us.isEmpty then none else some (String.mk us),
     String.mk (pstripL n)⟩
  | none => ⟨none, none, raw⟩

/-- Modelled from the spec: the validity filter of the repository's second
parser file, which is not present under `src/`: a line is a serving-size
annotation when its lowercased text contains `serving`, `serves` or
`yields`. -/
def isServingLine (s : String) : Bool :=
  let l := lcList s.toList
  lcontains "serving".toList l || lcontains "serves".toList l || lcontains "yields".toList l

/-- Modelled from the spec: the raw ingredient lines that survive trimming,
the empty-line drop, and the validity filter, in the canonical pipeline
shared by the structured and heuristic paths. -/
def surviving (raws : List String) : List String :=
  ((raws.map pstrip).filter (fun s => !(s == ""))).filter (fun s => !(isServingLine s))

/-- Modelled from the spec: the canonical ingredient pipeline — extract raw
strings, apply the validity filter, then decompose each survivor. -/
def ingredientPipeline (raws : List String) : List Ingredient :=
  (surviving raws).map decompose

/-- A structured-data script element with the given `.string` content. -/
def ldScript (s : Option String) (nx : HForest) : HForest :=
  HForest.node "script" none [("type", "application/ld+json")] s (s.getD "") HForest.nil nx

/-- A generic element with a class, a text, children and siblings. -/
def elemN (tag : String) (cls : Option String) (text : String) (ch nx : HForest) : HForest :=
  HForest.node tag cls [] none text ch nx

/-- A page whose structured block is Recipe-typed but carries an
instructions element that is a mapping without a `text` field. -/
def docBadInstr : HForest :=
  ldScript (some "\x7b\"@type\": \"Recipe\", \"recipeInstructions\": [\x7b\"name\": \"mix\"\x7d]\x7d")
    HForest.nil

/-- A page with a valid Recipe-typed structured block and conflicting
heuristic markup (an `h1` and an ingredient list). -/
def docStructuredVsHtml : HForest :=
  ldScript (some "\x7b\"@type\": \"Recipe\", \"name\": \"Tart\"\x7d")
    (elemN "h1" none "HTML Pie" HForest.nil
      (elemN "ul" (some "ingredients-list") "1 egg"
        (elemN "li" none "1 egg" HForest.nil HForest.nil) HForest.nil))

/-- A heuristic-only page: an ingredient list with one real item and one
whitespace-only item. -/
def docHeuristic : HForest :=
  elemN "ul" (some "recipe-ingredients") " 2 eggs    "
    (elemN "li" none " 2 eggs " HForest.nil
      (elemN "li" none "   " HForest.nil HForest.nil)) HForest.nil

/-- A page whose structured block encodes a JSON array whose first element
is a Recipe-typed object. -/
def docArrayRecipe : HForest :=
  ldScript (some "[\x7b\"@type\": \"recipe\", \"name\": \"Pie\"\x7d]") HForest.nil

/-- A page whose first structured script decodes to `null`, followed by a
second script with a valid Recipe block and heuristic markup. -/
def docNullThenRecipe : HForest :=
  ldScript (some "null")
    (ldScript (some "\x7b\"@type\": \"Recipe\", \"name\": \"Cake\"\x7d")
      (elemN "h1" none "Heuristic Cake" HForest.nil HForest.nil))

/-- A page whose first structured script holds malformed JSON, followed by
a second script with a valid Recipe block and heuristic markup. -/
def docBadJsonThenRecipe : HForest :=
  ldScript (some "not json")
    (ldScript (some "\x7b\"@type\": \"Recipe\", \"name\": \"Cake\"\x7d")
      (elemN "h1" none "Heuristic Cake" HForest.nil HForest.nil))

/-- A page whose first structured script element has no text content. -/
def docEmptyScript : HForest :=
  ldScript none (elemN "h1" none "Some Cake" HForest.nil HForest.nil)

/-- Name resolution as the specification words it: try, in order, the
first `h1` node, the `title` node, and the first node whose class name
matches the recipe-title pattern; the result is the first candidate whose
trimmed text is non-empty, and the empty string when none qualifies. -/
def resolveNameSpec (soup : HForest) : String :=
  (([findDoc isH1 soup, findDoc isTitleTag soup,
      findDoc (clsMatches titleRecipePat) soup].filterMap
    (fun o =>
      match o with
      | some pr => if pstrip pr.1.text == "" then none else some (pstrip pr.1.text)
      | none => none)).headD "")

/-- The heuristic recipe parsed from `docHeuristic`. -/
def recHeuristic : Recipe := ⟨"", "", ["2 eggs"], [], "u"⟩

/-- The recipe parsed from the empty page. -/
def recEmpty : Recipe := ⟨"", "", [], [], "u"⟩

theorem dropWhile_idem (p : Char → Bool) (l : List Char) :
    (l.dropWhile p).dropWhile p = l.dropWhile p := by
  induction l with
  | nil => rfl
  | cons a l ih =>
    by_cases h : p a
    · simp [List.dropWhile_cons, h, ih]
    · simp [List.dropWhile_cons, h]

theorem lstripL_idem (l : List Char) : lstripL (lstripL l) = lstripL l :=
  dropWhile_idem isPySpace l

theorem rstripL_idem (l : List Char) : rstripL (rstripL l) = rstripL l := by
  unfold rstripL
  rw [List.reverse_reverse, dropWhile_idem]

theorem length_dropWhile_le' (p : Char → Bool) (t : List Char) :
    (t.dropWhile p).length ≤ t.length := by
  induction t with
  | nil => simp
  | cons a t ih =>
    by_cases h : p a
    · rw [List.dropWhile_cons_of_pos h]
      exact Nat.le_trans ih (Nat.le_succ _)
    · rw [List.dropWhile_cons_of_neg h]

/-- Removing a trailing run preserves an already-stripped head, so left
stripping after right stripping is the identity on left-stripped lists. -/
theorem lstripL_rstripL (l : List Char) (h : lstripL l = l) :
    lstripL (rstripL l) = rstripL l := by
  have hdecomp : l.reverse.takeWhile isPySpace ++ l.reverse.dropWhile isPySpace = l.reverse := by
    simp
  cases hr : rstripL l with
  | nil => rfl
  | cons c cs =>
    -- rstripL l is a leading segment of l, so its head is l's head,
    -- which fails isPySpace because l is left-stripped.
    have hl : l = rstripL l ++ (l.reverse.takeWhile isPySpace).reverse := by
      unfold rstripL
      rw [← List.reverse_append, hdecomp, List.reverse_reverse]
    rw [hr] at hl
    have hhead : lstripL l = l := h
    rw [hl] at hhead
    have : isPySpace c = false := by
      rcases hc : isPySpace c with _ | _
      · rfl
      · unfold lstripL at hhead
        rw [List.cons_append, List.dropWhile_cons_of_pos hc] at hhead
        have hlen := congrArg List.length hhead
        have hle := length_dropWhile_le' isPySpace (cs ++ (l.reverse.takeWhile isPySpace).reverse)
        simp only [List.length_cons, List.length_append] at hlen hle
        omega
    unfold lstripL
    rw [List.dropWhile_cons_of_neg (by simp [this])]

theorem pstripL_idem (l : List Char) : pstripL (pstripL l) = pstripL l := by
  unfold pstripL
  rw [lstripL_rstripL (lstripL l) (lstripL_idem l), rstripL_idem]

theorem pstrip_idem (s : String) : pstrip (pstrip s) = pstrip s := by
  unfold pstrip
  have : (String.mk (pstripL s.toList)).toList = pstripL s.toList := rfl
  rw [this, pstripL_idem]

theorem jGetD_error (v : JVal) (k : String) (d : JVal) (e : PyErr)
    (h : jGetD v k d = Except.error e) : e = PyErr.attributeError := by
  cases v <;> simp [jGetD] at h <;> exact h.symm

theorem jStripE_error (v : JVal) (e : PyErr)
    (h : jStripE v = Except.error e) : e = PyErr.attributeError := by
  cases v <;> simp [jStripE] at h <;> exact h.symm

theorem jStripE_ok (v : JVal) (s : String) (h : jStripE v = Except.ok s) :
    pstrip s = s := by
  cases v <;> simp [jStripE] at h
  rw [← h]
  exact pstrip_idem _

theorem pyIter_error (v : JVal) (e : PyErr)
    (h : pyIter v = Except.error e) : e = PyErr.typeError := by
  cases v <;> simp [pyIter] at h <;> exact h.symm

theorem stripFilter_error (vs : List JVal) : ∀ (e : PyErr),
    stripFilter vs = Except.error e → e = PyErr.attributeError := by
  induction vs with
  | nil => intro e h; simp [stripFilter] at h
  | cons v vs ih =>
    intro e h
    unfold stripFilter at h
    cases h1 : jStripE v with
    | error e1 =>
      rw [h1] at h
      simp at h
      rw [← h]
      exact jStripE_error v e1 h1
    | ok s1 =>
      rw [h1] at h
      cases h2 : stripFilter vs with
      | error e2 =>
        rw [h2] at h
        simp at h
        rw [← h]
        exact ih e2 h2
      | ok rest =>
        rw [h2] at h
        simp at h

theorem stripFilter_mem (vs : List JVal) : ∀ (l : List String) (s : String),
    stripFilter vs = Except.ok l → s ∈ l → pstrip s = s ∧ ¬ s = "" := by
  induction vs with
  | nil =>
    intro l s h hs
    simp [stripFilter] at h
    subst h
    simp at hs
  | cons v vs ih =>
    intro l s h hs
    unfold stripFilter at h
    cases h1 : jStripE v with
    | error e1 => rw [h1] at h; simp at h
    | ok s1 =>
      rw [h1] at h
      cases h2 : stripFilter vs with
      | error e2 => rw [h2] at h; simp at h
      | ok rest =>
        rw [h2] at h
        simp at h
        by_cases hb : s1 = ""
        · rw [if_pos hb] at h
          subst h
          exact ih rest s h2 hs
        · rw [if_neg hb] at h
          subst h
          rcases List.mem_cons.mp hs with hh | ht
          · subst hh
            exact ⟨jStripE_ok v s h1, hb⟩
          · exact ih rest s h2 ht

theorem schemaStrField_error (d : JVal) (k : String) (e : PyErr)
    (h : schemaStrField d k = Except.error e) : e = PyErr.attributeError := by
  unfold schemaStrField at h
  cases h1 : jGetD d k (JVal.jstr "") with
  | error e1 =>
    rw [h1] at h
    simp at h
    rw [← h]
    exact jGetD_error d k _ e1 h1
  | ok v =>
    rw [h1] at h
    exact jStripE_error v e h

theorem schemaIngredients_error (d : JVal) (e : PyErr)
    (h : schemaIngredients d = Except.error e) :
    e = PyErr.attributeError ∨ e = PyErr.typeError := by
  unfold schemaIngredients at h
  cases h1 : jGetD d "recipeIngredient" (JVal.jarr []) with
  | error e1 =>
    rw [h1] at h
    simp at h
    rw [← h]
    exact Or.inl (jGetD_error d _ _ e1 h1)
  | ok v =>
    rw [h1] at h
    replace h : (match pyIter (promoteStr v) with
      | Except.error e => Except.error e
      | Except.ok vals => stripFilter vals) = Except.error e := h
    cases h2 : pyIter (promoteStr v) with
    | error e2 =>
      rw [h2] at h
      simp at h
      rw [← h]
      exact Or.inr (pyIter_error _ e2 h2)
    | ok vals =>
      rw [h2] at h
      exact Or.inl (stripFilter_error vals e h)

theorem schemaInstructions_error (d : JVal) (e : PyErr)
    (h : schemaInstructions d = Except.error e) :
    e = PyErr.attributeError ∨ e = PyErr.typeError := by
  unfold schemaInstructions at h
  cases h1 : jGetD d "recipeInstructions" (JVal.jarr []) with
  | error e1 =>
    rw [h1] at h
    simp at h
    rw [← h]
    exact Or.inl (jGetD_error d _ _ e1 h1)
  | ok v =>
    rw [h1] at h
    replace h : (match pyIter (normInstr v) with
      | Except.error e => Except.error e
      | Except.ok vals => stripFilter vals) = Except.error e := h
    cases h2 : pyIter (normInstr v) with
    | error e2 =>
      rw [h2] at h
      simp at h
      rw [← h]
      exact Or.inr (pyIter_error _ e2 h2)
    | ok vals =>
      rw [h2] at h
      exact Or.inl (stripFilter_error vals e h)

theorem parse_schema_recipe_error (d : JVal) (url : String) (e : PyErr)
    (h : parse_schema_recipe d url = Except.error e) :
    e = PyErr.attributeError ∨ e = PyErr.typeError := by
  unfold parse_schema_recipe at h
  cases h1 : schemaStrField d "name" with
  | error e1 =>
    rw [h1] at h
    simp at h
    rw [← h]
    exact Or.inl (schemaStrField_error d _ e1 h1)
  | ok name =>
    rw [h1] at h
    cases h2 : schemaStrField d "description" with
    | error e2 =>
      rw [h2] at h
      simp at h
      rw [← h]
      exact Or.inl (schemaStrField_error d _ e2 h2)
    | ok desc =>
      rw [h2] at h
      cases h3 : schemaIngredients d with
      | error e3 =>
        rw [h3] at h
        simp at h
        rw [← h]
        exact schemaIngredients_error d e3 h3
      | ok ing =>
        rw [h3] at h
        cases h4 : schemaInstructions d with
        | error e4 =>
          rw [h4] at h
          simp at h
          rw [← h]
          exact schemaInstructions_error d e4 h4
        | ok ins =>
          rw [h4] at h
          simp at h

theorem parse_schema_recipe_not_caught (d : JVal) (url : String) (e : PyErr)
    (h : parse_schema_recipe d url = Except.error e) :
    (e == PyErr.jsonDecodeError || e == PyErr.keyError) = false := by
  rcases parse_schema_recipe_error d url e h with h1 | h1 <;> subst h1 <;> rfl

theorem parse_schema_fields (d : JVal) (url : String) (r : Recipe)
    (h : parse_schema_recipe d url = Except.ok r) :
    schemaIngredients d = Except.ok r.ingredients ∧
      schemaInstructions d = Except.ok r.instructions := by
  obtain ⟨rn, rd, ri, rs, ru⟩ := r
  unfold parse_schema_recipe at h
  cases h1 : schemaStrField d "name" with
  | error e1 => rw [h1] at h; simp at h
  | ok name =>
    rw [h1] at h
    cases h2 : schemaStrField d "description" with
    | error e2 => rw [h2] at h; simp at h
    | ok desc =>
      rw [h2] at h
      cases h3 : schemaIngredients d with
      | error e3 => rw [h3] at h; simp at h
      | ok ing =>
        rw [h3] at h
        cases h4 : schemaInstructions d with
        | error e4 => rw [h4] at h; simp at h
        | ok ins =>
          rw [h4] at h
          simp at h
          obtain ⟨g1, g2, g3, g4, g5⟩ := h
          subst g3
          subst g4
          exact ⟨rfl, rfl⟩

theorem schemaIngredients_mem (d : JVal) (l : List String) (s : String)
    (h : schemaIngredients d = Except.ok l) (hs : s ∈ l) :
    pstrip s = s ∧ ¬ s = "" := by
  unfold schemaIngredients at h
  cases h1 : jGetD d "recipeIngredient" (JVal.jarr []) with
  | error e1 => rw [h1] at h; simp at h
  | ok v =>
    rw [h1] at h
    replace h : (match pyIter (promoteStr v) with
      | Except.error e => Except.error e
      | Except.ok vals => stripFilter vals) = Except.ok l := h
    cases h2 : pyIter (promoteStr v) with
    | error e2 => rw [h2] at h; simp at h
    | ok vals =>
      rw [h2] at h
      exact stripFilter_mem vals l s h hs

theorem schemaInstructions_mem (d : JVal) (l : List String) (s : String)
    (h : schemaInstructions d = Except.ok l) (hs : s ∈ l) :
    pstrip s = s ∧ ¬ s = "" := by
  unfold schemaInstructions at h
  cases h1 : jGetD d "recipeInstructions" (JVal.jarr []) with
  | error e1 => rw [h1] at h; simp at h
  | ok v =>
    rw [h1] at h
    replace h : (match pyIter (normInstr v) with
      | Except.error e => Except.error e
      | Except.ok vals => stripFilter vals) = Except.ok l := h
    cases h2 : pyIter (normInstr v) with
    | error e2 => rw [h2] at h; simp at h
    | ok vals =>
      rw [h2] at h
      exact stripFilter_mem vals l s h hs

theorem atTypeMem_error (v : JVal) (e : PyErr) (h : atTypeMem v = Except.error e) :
    e = PyErr.typeError := by
  cases v <;> simp [atTypeMem] at h <;> exact h.symm

theorem atTypeGet_error (v : JVal) (e : PyErr) (h : atTypeGet v = Except.error e) :
    e = PyErr.typeError ∨ e = PyErr.keyError := by
  cases v with
  | jobj fs =>
    unfold atTypeGet at h
    replace h : (match dictFind fs "@type" with
      | some t => Except.ok t
      | none => Except.error PyErr.keyError) = Except.error e := h
    cases hd : dictFind fs "@type" with
    | some t => rw [hd] at h; simp at h
    | none => rw [hd] at h; simp at h; exact Or.inr h.symm
  | jnull => simp [atTypeGet] at h; exact Or.inl h.symm
  | jbool b => simp [atTypeGet] at h; exact Or.inl h.symm
  | jnum s => simp [atTypeGet] at h; exact Or.inl h.symm
  | jstr s => simp [atTypeGet] at h; exact Or.inl h.symm
  | jarr xs => simp [atTypeGet] at h; exact Or.inl h.symm

theorem jFirst_error (v : JVal) (e : PyErr) (h : jFirst v = Except.error e) :
    e = PyErr.indexError := by
  cases v with
  | jarr xs =>
    cases xs with
    | nil => simp [jFirst] at h; exact h.symm
    | cons x xs => simp [jFirst] at h
  | jnull => simp [jFirst] at h
  | jbool b => simp [jFirst] at h
  | jnum s => simp [jFirst] at h
  | jstr s => simp [jFirst] at h
  | jobj fs => simp [jFirst] at h

theorem json_loads_error (o : Option String) (e : PyErr)
    (h : json_loads o = Except.error e) :
    e = PyErr.typeError ∨ e = PyErr.jsonDecodeError := by
  cases o with
  | none => simp [json_loads] at h; exact Or.inl h.symm
  | some s =>
    unfold json_loads at h
    replace h : (match parseVal (s.length + 1) s.toList with
      | some (v, r) =>
        if skipWs r == [] then Except.ok v else Except.error PyErr.jsonDecodeError
      | none => Except.error PyErr.jsonDecodeError) = Except.error e := h
    cases hp : parseVal (s.length + 1) s.toList with
    | none => rw [hp] at h; simp at h; exact Or.inr h.symm
    | some pr =>
      obtain ⟨v, r⟩ := pr
      rw [hp] at h
      by_cases hw : skipWs r = []
      · simp [hw] at h
      · simp [hw] at h
        exact Or.inr h.symm

theorem probeType_ok_some (d : JVal) (url : String) (r : Recipe)
    (h : probeType d url = Except.ok (some r)) :
    parse_schema_recipe d url = Except.ok r := by
  unfold probeType at h
  cases h1 : atTypeMem d with
  | error e1 => rw [h1] at h; simp at h
  | ok mem =>
    rw [h1] at h
    cases mem with
    | false => simp at h
    | true =>
      simp only [if_pos] at h
      cases h2 : atTypeGet d with
      | error e2 => rw [h2] at h; simp at h
      | ok t =>
        rw [h2] at h
        replace h : (if isRecipeType t = true then
            match parse_schema_recipe d url with
            | Except.error e => Except.error e
            | Except.ok r => Except.ok (some r)
          else Except.ok none) = Except.ok (some r) := h
        cases hrt : isRecipeType t with
        | false => rw [hrt] at h; simp at h
        | true =>
          rw [hrt] at h
          simp only [if_pos] at h
          cases h3 : parse_schema_recipe d url with
          | error e3 => rw [h3] at h; simp at h
          | ok r0 =>
            rw [h3] at h
            simp at h
            rw [h]

theorem probeType_error (d : JVal) (url : String) (e : PyErr)
    (h : probeType d url = Except.error e) :
    e = PyErr.typeError ∨ e = PyErr.keyError ∨ e = PyErr.attributeError := by
  unfold probeType at h
  cases h1 : atTypeMem d with
  | error e1 =>
    rw [h1] at h
    simp at h
    rw [← h]
    exact Or.inl (atTypeMem_error d e1 h1)
  | ok mem =>
    rw [h1] at h
    cases mem with
    | false => simp at h
    | true =>
      simp only [if_pos] at h
      cases h2 : atTypeGet d with
      | error e2 =>
        rw [h2] at h
        simp at h
        rw [← h]
        rcases atTypeGet_error d e2 h2 with h3 | h3
        · exact Or.inl h3
        · exact Or.inr (Or.inl h3)
      | ok t =>
        rw [h2] at h
        replace h : (if isRecipeType t = true then
            match parse_schema_recipe d url with
            | Except.error e => Except.error e
            | Except.ok r => Except.ok (some r)
          else Except.ok none) = Except.error e := h
        cases hrt : isRecipeType t with
        | false => rw [hrt] at h; simp at h
        | true =>
          rw [hrt] at h
          simp only [if_pos] at h
          cases h3 : parse_schema_recipe d url with
          | error e3 =>
            rw [h3] at h
            simp at h
            rw [← h]
            rcases parse_schema_recipe_error d url e3 h3 with h4 | h4
            · exact Or.inr (Or.inr h4)
            · exact Or.inl h4
          | ok r0 => rw [h3] at h; simp at h

theorem tryStructured_ok_some (sc : NodeView) (url : String) (r : Recipe)
    (h : tryStructured sc url = Except.ok (some r)) :
    ∃ d, parse_schema_recipe d url = Except.ok r := by
  unfold tryStructured at h
  cases h1 : json_loads sc.strChild with
  | error e1 => rw [h1] at h; simp at h
  | ok v0 =>
    rw [h1] at h
    replace h : (match jFirst v0 with
      | Except.error e => Except.error e
      | Except.ok d => probeType d url) = Except.ok (some r) := h
    cases h2 : jFirst v0 with
    | error e2 => rw [h2] at h; simp at h
    | ok d =>
      rw [h2] at h
      exact ⟨d, probeType_ok_some d url r h⟩

theorem tryStructured_error (sc : NodeView) (url : String) (e : PyErr)
    (h : tryStructured sc url = Except.error e) :
    e = PyErr.typeError ∨ e = PyErr.keyError ∨ e = PyErr.attributeError ∨
      e = PyErr.indexError ∨ e = PyErr.jsonDecodeError := by
  unfold tryStructured at h
  cases h1 : json_loads sc.strChild with
  | error e1 =>
    rw [h1] at h
    simp at h
    rw [← h]
    rcases json_loads_error _ e1 h1 with h2 | h2
    · exact Or.inl h2
    · exact Or.inr (Or.inr (Or.inr (Or.inr h2)))
  | ok v0 =>
    rw [h1] at h
    replace h : (match jFirst v0 with
      | Except.error e => Except.error e
      | Except.ok d => probeType d url) = Except.error e := h
    cases h2 : jFirst v0 with
    | error e2 =>
      rw [h2] at h
      simp at h
      rw [← h]
      exact Or.inr (Or.inr (Or.inr (Or.inl (jFirst_error v0 e2 h2))))
    | ok d =>
      rw [h2] at h
      rcases probeType_error d url e h with h3 | h3 | h3
      · exact Or.inl h3
      · exact Or.inr (Or.inl h3)
      · exact Or.inr (Or.inr (Or.inl h3))

theorem stripTexts_mem (items : List (NodeView × HForest)) (s : String)
    (h : s ∈ stripTexts items) : pstrip s = s ∧ ¬ s = "" := by
  unfold stripTexts at h
  obtain ⟨h1, h2⟩ := List.mem_filter.mp h
  obtain ⟨it, hit, rfl⟩ := List.mem_map.mp h1
  refine ⟨pstrip_idem _, ?_⟩
  simpa using h2

theorem parse_html_ingredients_none (soup : HForest) (url : String)
    (hf : findDoc isIngSection soup = none) :
    (parse_html_recipe soup url).ingredients = [] := by
  unfold parse_html_recipe
  simp [hf]

theorem parse_html_ingredients_some (soup : HForest) (url : String) (v : NodeView)
    (ch : HForest) (hf : findDoc isIngSection soup = some (v, ch)) :
    (parse_html_recipe soup url).ingredients = stripTexts (findAllF isLiP ch) := by
  unfold parse_html_recipe
  simp [hf]

theorem parse_html_instructions_none (soup : HForest) (url : String)
    (hf : findDoc isInstrSection soup = none) :
    (parse_html_recipe soup url).instructions = [] := by
  unfold parse_html_recipe
  simp [hf]

theorem parse_html_instructions_some (soup : HForest) (url : String) (v : NodeView)
    (ch : HForest) (hf : findDoc isInstrSection soup = some (v, ch)) :
    (parse_html_recipe soup url).instructions = stripTexts (findAllF isLiP ch) := by
  unfold parse_html_recipe
  simp [hf]

theorem parse_html_entries (soup : HForest) (url : String) :
    (∀ s ∈ (parse_html_recipe soup url).ingredients, pstrip s = s ∧ ¬ s = "") ∧
      (∀ s ∈ (parse_html_recipe soup url).instructions, pstrip s = s ∧ ¬ s = "") := by
  constructor
  · intro s hs
    cases hf : findDoc isIngSection soup with
    | none =>
      rw [parse_html_ingredients_none soup url hf] at hs
      simp at hs
    | some pr =>
      obtain ⟨v, ch⟩ := pr
      rw [parse_html_ingredients_some soup url v ch hf] at hs
      exact stripTexts_mem _ s hs
  · intro s hs
    cases hf : findDoc isInstrSection soup with
    | none =>
      rw [parse_html_instructions_none soup url hf] at hs
      simp at hs
    | some pr =>
      obtain ⟨v, ch⟩ := pr
      rw [parse_html_instructions_some soup url v ch hf] at hs
      exact stripTexts_mem _ s hs

theorem parse_recipe_ok_cases (soup : HForest) (url : String) (r : Recipe)
    (h : parse_recipe soup url = Except.ok r) :
    r = parse_html_recipe soup url ∨ ∃ d, parse_schema_recipe d url = Except.ok r := by
  unfold parse_recipe at h
  cases hf : findDoc isLdJsonScript soup with
  | none =>
    rw [hf] at h
    simp at h
    exact Or.inl h.symm
  | some pr =>
    obtain ⟨sc, ch⟩ := pr
    rw [hf] at h
    replace h : (match tryStructured sc url with
      | Except.ok (some r) => Except.ok r
      | Except.ok none => Except.ok (parse_html_recipe soup url)
      | Except.error e =>
        if e == PyErr.jsonDecodeError || e == PyErr.keyError then
          Except.ok (parse_html_recipe soup url)
        else Except.error e) = Except.ok r := h
    cases ht : tryStructured sc url with
    | ok o =>
      rw [ht] at h
      cases o with
      | some r0 =>
        simp at h
        subst h
        exact Or.inr (tryStructured_ok_some sc url r0 ht)
      | none =>
        simp at h
        exact Or.inl h.symm
    | error e0 =>
      rw [ht] at h
      replace h : (if (e0 == PyErr.jsonDecodeError || e0 == PyErr.keyError) = true then
          Except.ok (parse_html_recipe soup url)
        else Except.error e0) = Except.ok r := h
      by_cases hc : (e0 == PyErr.jsonDecodeError || e0 == PyErr.keyError) = true
      · rw [if_pos hc] at h
        simp at h
        exact Or.inl h.symm
      · rw [if_neg hc] at h
        simp at h

theorem parse_recipe_error_classes (soup : HForest) (url : String) (e : PyErr)
    (h : parse_recipe soup url = Except.error e) :
    e = PyErr.typeError ∨ e = PyErr.attributeError ∨ e = PyErr.indexError := by
  unfold parse_recipe at h
  cases hf : findDoc isLdJsonScript soup with
  | none =>
    rw [hf] at h
    simp at h
  | some pr =>
    obtain ⟨sc, ch⟩ := pr
    rw [hf] at h
    replace h : (match tryStructured sc url with
      | Except.ok (some r) => Except.ok r
      | Except.ok none => Except.ok (parse_html_recipe soup url)
      | Except.error e =>
        if e == PyErr.jsonDecodeError || e == PyErr.keyError then
          Except.ok (parse_html_recipe soup url)
        else Except.error e) = Except.error e := h
    cases ht : tryStructured sc url with
    | ok o =>
      rw [ht] at h
      cases o with
      | some r0 => simp at h
      | none => simp at h
    | error e0 =>
      rw [ht] at h
      replace h : (if (e0 == PyErr.jsonDecodeError || e0 == PyErr.keyError) = true then
          Except.ok (parse_html_recipe soup url)
        else Except.error e0) = Except.error e := h
      by_cases hc : (e0 == PyErr.jsonDecodeError || e0 == PyErr.keyError) = true
      · rw [if_pos hc] at h
        simp at h
      · rw [if_neg hc] at h
        simp at h
        subst h
        simp at hc
        obtain ⟨hc1, hc2⟩ := hc
        rcases tryStructured_error sc url e0 ht with h3 | h3 | h3 | h3 | h3
        · exact Or.inl h3
        · exact absurd h3 hc2
        · exact Or.inr (Or.inl h3)
        · exact Or.inr (Or.inr h3)
        · exact absurd h3 hc1

theorem parse_recipe_structured_eq (soup : HForest) (url : String) (sc : NodeView)
    (ch : HForest) (v0 : JVal) (fs : List (String × JVal)) (t : JVal)
    (hf : findDoc isLdJsonScript soup = some (sc, ch))
    (hj : json_loads sc.strChild = Except.ok v0)
    (hfirst : jFirst v0 = Except.ok (JVal.jobj fs))
    (hty : dictFind fs "@type" = some t)
    (hrt : isRecipeType t = true) :
    parse_recipe soup url = parse_schema_recipe (JVal.jobj fs) url := by
  have hmem : atTypeMem (JVal.jobj fs) = Except.ok true := by
    simp [atTypeMem, hty]
  have hget : atTypeGet (JVal.jobj fs) = Except.ok t := by
    simp [atTypeGet, hty]
  have hprobe : probeType (JVal.jobj fs) url =
      (match parse_schema_recipe (JVal.jobj fs) url with
       | Except.error e => Except.error e
       | Except.ok r => Except.ok (some r)) := by
    cases hps : parse_schema_recipe (JVal.jobj fs) url with
    | ok r => simp [probeType, hmem, hget, hrt, hps]
    | error e => simp [probeType, hmem, hget, hrt, hps]
  have htry : tryStructured sc url =
      (match parse_schema_recipe (JVal.jobj fs) url with
       | Except.error e => Except.error e
       | Except.ok r => Except.ok (some r)) := by
    unfold tryStructured
    simp only [hj, hfirst, hprobe]
  unfold parse_recipe
  simp only [hf, htry]
  cases hps : parse_schema_recipe (JVal.jobj fs) url with
  | ok r => simp [hps]
  | error e =>
    simp [hps]
    have hnc := parse_schema_recipe_not_caught (JVal.jobj fs) url e hps
    simp at hnc
    simp [hnc]

theorem pickText_eq (cands : List (Option (NodeView × HForest))) :
    pickText cands = ((cands.filterMap (fun o =>
      match o with
      | some pr => if pstrip pr.1.text == "" then none else some (pstrip pr.1.text)
      | none => none)).headD "") := by
  induction cands with
  | nil => rfl
  | cons c rest ih =>
    cases c with
    | none =>
      simp only [pickText, List.filterMap_cons]
      exact ih
    | some pr =>
      obtain ⟨n, ch⟩ := pr
      cases hb : (pstrip n.text == "") with
      | true =>
        simp only [pickText, hb, List.filterMap_cons, if_true]
        exact ih
      | false =>
        simp only [pickText, hb, List.filterMap_cons, if_false]
        rfl

/-- Claim C1 (counterexample): the claim that every downstream parsing
failure is absorbed is false on the code: a structured block whose
instructions element is a mapping without a `text` field makes
`parse_recipe` raise an `AttributeError`, which crosses the caller
boundary as a non-fetch failure. -/
theorem parse_recipe_nonfetch_exception :
    parse_recipe_url (Except.ok docBadInstr) "http://example.com/r" =
      Except.error (TopErr.pyError PyErr.attributeError) := rfl

/-- Claim C1 (amended): every failure of `parse_recipe_url` is either the
wrapped fetch failure or one of the Python exception classes `TypeError`,
`AttributeError`, `IndexError` escaping the structured probe; the
`json.JSONDecodeError` and `KeyError` classes are absorbed by the handler
and never cross the boundary. -/
theorem parse_recipe_url_failure_taxonomy (fetched : Except String HForest) (url : String)
    (e : TopErr) (h : parse_recipe_url fetched url = Except.error e) :
    (∃ m, e = TopErr.fetchError m) ∨ e = TopErr.pyError PyErr.typeError ∨
      e = TopErr.pyError PyErr.attributeError ∨ e = TopErr.pyError PyErr.indexError := by
  cases fetched with
  | error m =>
    unfold parse_recipe_url at h
    simp at h
    exact Or.inl ⟨"Failed to fetch recipe page: " ++ m, h.symm⟩
  | ok soup =>
    unfold parse_recipe_url at h
    replace h : (match parse_recipe soup url with
      | Except.ok r => Except.ok r
      | Except.error e => Except.error (TopErr.pyError e)) = Except.error e := h
    cases hp : parse_recipe soup url with
    | ok r => rw [hp] at h; simp at h
    | error e0 =>
      rw [hp] at h
      simp at h
      subst h
      rcases parse_recipe_error_classes soup url e0 hp with hcl | hcl | hcl <;> subst hcl
      · exact Or.inr (Or.inl rfl)
      · exact Or.inr (Or.inr (Or.inl rfl))
      · exact Or.inr (Or.inr (Or.inr rfl))

/-- Claim C1 (witness for the amended theorem) at the concrete page with
the text-less instructions mapping. -/
theorem parse_recipe_url_failure_taxonomy_witness :
    (∃ m, TopErr.pyError PyErr.attributeError = TopErr.fetchError m) ∨
      TopErr.pyError PyErr.attributeError = TopErr.pyError PyErr.typeError ∨
      TopErr.pyError PyErr.attributeError = TopErr.pyError PyErr.attributeError ∨
      TopErr.pyError PyErr.attributeError = TopErr.pyError PyErr.indexError :=
  parse_recipe_url_failure_taxonomy (Except.ok docBadInstr) "http://example.com/r"
    (TopErr.pyError PyErr.attributeError) rfl

/-- Claim C2: when the first structured-data script decodes to an object
whose `@type` is `Recipe` or `recipe`, the result of `parse_recipe` is
exactly the structured extractor's result on that object — the heuristic
extractor contributes nothing, whatever the rest of the page holds. -/
theorem structured_data_exclusive (soup : HForest) (url : String) (sc : NodeView)
    (ch : HForest) (fs : List (String × JVal)) (t : JVal)
    (hf : findDoc isLdJsonScript soup = some (sc, ch))
    (hj : json_loads sc.strChild = Except.ok (JVal.jobj fs))
    (hty : dictFind fs "@type" = some t)
    (hrt : isRecipeType t = true) :
    parse_recipe soup url = parse_schema_recipe (JVal.jobj fs) url :=
  parse_recipe_structured_eq soup url sc ch (JVal.jobj fs) fs t hf hj rfl hty hrt

/-- Claim C2 (witness): a concrete page carrying both a valid structured
block and conflicting heuristic markup. -/
theorem structured_data_exclusive_witness :
    parse_recipe docStructuredVsHtml "u" =
      parse_schema_recipe
        (JVal.jobj [("@type", JVal.jstr "Recipe"), ("name", JVal.jstr "Tart")]) "u" :=
  structured_data_exclusive docStructuredVsHtml "u"
    (NodeView.mk "script" none [("type", "application/ld+json")]
      (some "\x7b\"@type\": \"Recipe\", \"name\": \"Tart\"\x7d")
      "\x7b\"@type\": \"Recipe\", \"name\": \"Tart\"\x7d")
    HForest.nil
    [("@type", JVal.jstr "Recipe"), ("name", JVal.jstr "Tart")]
    (JVal.jstr "Recipe") (by rfl) (by rfl) (by rfl) (by rfl)

/-- Claim C3 (spec-modelled): a raw line whose lowercased text contains
`serving`, `serves` or `yields` never survives the validity filter, every
surviving line is free of those markers, and the pipeline decomposes
exactly the survivors — so such a line never reaches decomposition and
never appears among the produced ingredients. -/
theorem serving_lines_never_decomposed (raws : List String) (s : String)
    (h : isServingLine s = true) :
    s ∉ surviving raws ∧ (∀ t ∈ surviving raws, isServingLine t = false) ∧
      ingredientPipeline raws = (surviving raws).map decompose := by
  refine ⟨?_, ?_, rfl⟩
  · intro hmem
    have h2 := (List.mem_filter.mp hmem).2
    simp at h2
    rw [h] at h2
    cases h2
  · intro t ht
    have h2 := (List.mem_filter.mp ht).2
    simpa using h2

/-- Claim C3 (witness) on a concrete raw list with a serving annotation. -/
theorem serving_lines_never_decomposed_witness :
    "Serves 4" ∉ surviving ["2 cups flour", "Serves 4"] ∧
      (∀ t ∈ surviving ["2 cups flour", "Serves 4"], isServingLine t = false) ∧
      ingredientPipeline ["2 cups flour", "Serves 4"] =
        (surviving ["2 cups flour", "Serves 4"]).map decompose :=
  serving_lines_never_decomposed ["2 cups flour", "Serves 4"] "Serves 4" rfl

/-- Claim C4 (spec-modelled): the decomposer meets the specification's
round-trip examples and is total — every raw string yields an Ingredient. -/
theorem decompose_examples_and_total :
    decompose "2 cups flour" = ⟨some "2", some "cups", "flour"⟩ ∧
      decompose "1/2 tsp salt" = ⟨some "1/2", some "tsp", "salt"⟩ ∧
      decompose "salt" = ⟨none, none, "salt"⟩ ∧
      decompose "3 large eggs" = ⟨some "3", some "large", "eggs"⟩ ∧
      ∀ raw : String, ∃ ing : Ingredient, decompose raw = ing :=
  ⟨rfl, rfl, rfl, rfl, fun raw => ⟨decompose raw, rfl⟩⟩

/-- Claim C5: every Recipe that `parse_recipe` returns — through either
extraction path — has no ingredient or instruction entry that is empty or
whitespace-only after trimming. -/
theorem parse_recipe_no_blank_entries (soup : HForest) (url : String) (r : Recipe)
    (h : parse_recipe soup url = Except.ok r) :
    (∀ s ∈ r.ingredients, pstrip s ≠ "") ∧ (∀ s ∈ r.instructions, pstrip s ≠ "") := by
  rcases parse_recipe_ok_cases soup url r h with hr | ⟨d, hd⟩
  · subst hr
    obtain ⟨h1, h2⟩ := parse_html_entries soup url
    constructor
    · intro s hs
      obtain ⟨hp, hne⟩ := h1 s hs
      rw [hp]
      exact hne
    · intro s hs
      obtain ⟨hp, hne⟩ := h2 s hs
      rw [hp]
      exact hne
  · obtain ⟨hi, hn⟩ := parse_schema_fields d url r hd
    constructor
    · intro s hs
      obtain ⟨hp, hne⟩ := schemaIngredients_mem d r.ingredients s hi hs
      rw [hp]
      exact hne
    · intro s hs
      obtain ⟨hp, hne⟩ := schemaInstructions_mem d r.instructions s hn hs
      rw [hp]
      exact hne

/-- Claim C5 (witness) on the concrete heuristic page whose list holds one
real item and one whitespace-only item. -/
theorem parse_recipe_no_blank_entries_witness :
    (∀ s ∈ recHeuristic.ingredients, pstrip s ≠ "") ∧
      (∀ s ∈ recHeuristic.instructions, pstrip s ≠ "") :=
  parse_recipe_no_blank_entries docHeuristic "u" recHeuristic rfl

/-- Claim C6: the heuristic extractor resolves the recipe name exactly as
the specification words it — first `h1`, then `title`, then the first
recipe-title-classed node, first non-empty trimmed text winning, empty
string otherwise. -/
theorem html_name_resolution (soup : HForest) (url : String) :
    (parse_html_recipe soup url).name = resolveNameSpec soup := by
  show pickText [findDoc isH1 soup, findDoc isTitleTag soup,
    findDoc (clsMatches titleRecipePat) soup] = resolveNameSpec soup
  unfold resolveNameSpec
  exact pickText_eq _

/-- Claim C7: when the first structured script decodes to a JSON array
whose first element is a Recipe-typed object, `parse_recipe` selects that
first element and returns the structured extractor's result on it. -/
theorem json_array_first_selected (soup : HForest) (url : String) (sc : NodeView)
    (ch : HForest) (fs : List (String × JVal)) (rest : List JVal) (t : JVal)
    (hf : findDoc isLdJsonScript soup = some (sc, ch))
    (hj : json_loads sc.strChild = Except.ok (JVal.jarr (JVal.jobj fs :: rest)))
    (hty : dictFind fs "@type" = some t)
    (hrt : isRecipeType t = true) :
    parse_recipe soup url = parse_schema_recipe (JVal.jobj fs) url :=
  parse_recipe_structured_eq soup url sc ch (JVal.jarr (JVal.jobj fs :: rest)) fs t
    hf hj rfl hty hrt

/-- Claim C7 (witness): a concrete page whose structured block is an array
with the recipe object first. -/
theorem json_array_first_selected_witness :
    parse_recipe docArrayRecipe "u" =
      parse_schema_recipe
        (JVal.jobj [("@type", JVal.jstr "recipe"), ("name", JVal.jstr "Pie")]) "u" :=
  json_array_first_selected docArrayRecipe "u"
    (NodeView.mk "script" none [("type", "application/ld+json")]
      (some "[\x7b\"@type\": \"recipe\", \"name\": \"Pie\"\x7d]")
      "[\x7b\"@type\": \"recipe\", \"name\": \"Pie\"\x7d]")
    HForest.nil
    [("@type", JVal.jstr "recipe"), ("name", JVal.jstr "Pie")]
    [] (JVal.jstr "recipe") (by rfl) (by rfl) (by rfl) (by rfl)

/-- Claim C8: parsing is deterministic — two runs over the same markup
tree yield Recipes agreeing on every field. -/
theorem parse_recipe_deterministic (soup : HForest) (url : String) (r1 r2 : Recipe)
    (h1 : parse_recipe soup url = Except.ok r1)
    (h2 : parse_recipe soup url = Except.ok r2) :
    r1.name = r2.name ∧ r1.description = r2.description ∧
      r1.ingredients = r2.ingredients ∧ r1.instructions = r2.instructions ∧
      r1.url = r2.url := by
  have h3 := h1.symm.trans h2
  injection h3 with h4
  subst h4
  exact ⟨rfl, rfl, rfl, rfl, rfl⟩

/-- Claim C8 (witness) on the empty page. -/
theorem parse_recipe_deterministic_witness :
    recEmpty.name = recEmpty.name ∧ recEmpty.description = recEmpty.description ∧
      recEmpty.ingredients = recEmpty.ingredients ∧
      recEmpty.instructions = recEmpty.instructions ∧ recEmpty.url = recEmpty.url :=
  parse_recipe_deterministic HForest.nil "u" recEmpty recEmpty rfl rfl

/-- Claim C9 (counterexample): a page whose first structured script
decodes to `null` (not a Recipe-typed object) makes `parse_recipe` raise a
`TypeError` instead of falling back to the heuristic extractor, even
though a later script holds a valid Recipe block. -/
theorem first_script_null_raises :
    parse_recipe docNullThenRecipe "u" = Except.error PyErr.typeError ∧
      ¬ parse_recipe docNullThenRecipe "u" =
          Except.ok (parse_html_recipe docNullThenRecipe "u") := by
  constructor
  · rfl
  · intro hcontra
    rw [show parse_recipe docNullThenRecipe "u" = Except.error PyErr.typeError from rfl]
      at hcontra
    cases hcontra

/-- Claim C9 (amended): only the first `application/ld+json` script is
probed; when its text fails JSON decoding, or the probe falls through
without returning (no discriminator, wrong discriminator, or a string
without `@type`), `parse_recipe` falls back to the heuristic extractor
even if later scripts carry valid Recipe blocks — but a first script that
decodes to `null`, a number, a boolean or an empty array raises instead. -/
theorem first_script_decides_fallback (soup : HForest) (url : String) (sc : NodeView)
    (ch : HForest)
    (hf : findDoc isLdJsonScript soup = some (sc, ch))
    (h : json_loads sc.strChild = Except.error PyErr.jsonDecodeError ∨
      tryStructured sc url = Except.ok none) :
    parse_recipe soup url = Except.ok (parse_html_recipe soup url) := by
  have htry : tryStructured sc url = Except.error PyErr.jsonDecodeError ∨
      tryStructured sc url = Except.ok none := by
    rcases h with h | h
    · left
      unfold tryStructured
      rw [h]
    · right
      exact h
  unfold parse_recipe
  simp only [hf]
  rcases htry with h | h
  · rw [h]
    rfl
  · rw [h]

/-- Claim C9 (witness for the amended theorem): the first script is
malformed, the second holds a valid Recipe block; the heuristic result is
returned. -/
theorem first_script_decides_fallback_witness :
    parse_recipe docBadJsonThenRecipe "u" =
      Except.ok (parse_html_recipe docBadJsonThenRecipe "u") :=
  first_script_decides_fallback docBadJsonThenRecipe "u"
    (NodeView.mk "script" none [("type", "application/ld+json")] (some "not json") "not json")
    HForest.nil (by rfl) (Or.inl (by rfl))

/-- Claim C10: when the first structured script element exists but has no
text content, `json.loads` is applied to an absent string and the
resulting `TypeError` escapes `parse_recipe` instead of a silent fallback
to heuristic extraction. -/
theorem empty_script_raises (soup : HForest) (url : String) (sc : NodeView) (ch : HForest)
    (hf : findDoc isLdJsonScript soup = some (sc, ch))
    (hs : sc.strChild = none) :
    parse_recipe soup url = Except.error PyErr.typeError := by
  have htry : tryStructured sc url = Except.error PyErr.typeError := by
    unfold tryStructured
    rw [hs]
    rfl
  unfold parse_recipe
  simp only [hf, htry]
  rfl

/-- Claim C10 (witness) on the concrete page with an empty script. -/
theorem empty_script_raises_witness :
    parse_recipe docEmptyScript "u" = Except.error PyErr.typeError :=
  empty_script_raises docEmptyScript "u"
    (NodeView.mk "script" none [("type", "application/ld+json")] none "")
    HForest.nil (by rfl) (by rfl)

end RecipeParser
